import Mathlib

/- Verification of the paginated-listing engine of the infra package: the
   three page-streaming list operations (zones, instances, DNS record sets),
   their request validation, and the one-shot cancellation primitive.

   Modelling conventions. Go strings are Lean String, Go int64 is Lean Int
   (page counters and page-size bounds stay far below 2^63 in any run the
   theorems quantify over, so wrap-around is immaterial and not modelled).
   A Go error value is a GoErr; a nil error is none. A possibly-nil pointer
   receiver is an Option. The remote services (compute.InstancesService,
   compute.ZonesService, dns.ResourceRecordSetsService) are external
   collaborators: a configured list call is abstracted as a function from
   the MaxResults setting and the PageToken setting to the result of Do(),
   namely either an error or (Items, NextPageToken). The unbuffered pages
   channel is modelled by the list of pages sent on it, in order; the
   goroutine's deferred close(pagesChan) is modelled by a Boolean that is
   true when the loop returned within the supplied fuel. The select over
   cancelChan and time.After(throttleDuration) is modelled by an oracle
   telling, for each checkpoint, whether cancellation was observed there. -/

/-- GoErr models the package's error values: one constructor per sentinel
error created with errors.New in the source, plus `remote` for an error
returned by a remote API call. -/
inductive GoErr : Type where
  | errBlankProject
  | errBlankZone
  | errEmptyInstanceID
  | errEmptyProject
  | errEmptyZone
  | errBlankName
  | errUnimplemented
  | errEmptyNetworkInterface
  | remote (msg : String)
deriving DecidableEq, Repr

/-- ZoneRequest mirrors the Go struct ZoneRequest. -/
structure ZoneRequest : Type where
  Project : String
  OrderBy : String
  Filter : String
  MaxPages : Int
  ResultsPerPage : Int
deriving DecidableEq, Repr

/-- InstancesRequest mirrors the Go struct InstancesRequest. -/
structure InstancesRequest : Type where
  Project : String
  OrderBy : String
  Filter : String
  MaxPages : Int
  ResultsPerPage : Int
  Zone : String
deriving DecidableEq, Repr

/-- RecordSetRequest mirrors the Go struct RecordSetRequest. -/
structure RecordSetRequest : Type where
  Project : String
  Zone : String
  DomainName : String
  MaxPages : Int
  ResultsPerPage : Int
deriving DecidableEq, Repr

/-- ZoneRequest.Validate models the Go method with its possibly-nil
receiver: `if zreq == nil || zreq.Project == "" { return errBlankProject }`. -/
def ZoneRequest.Validate : Option ZoneRequest → Option GoErr
  | none => some GoErr.errBlankProject
  | some zreq => if zreq.Project = "" then some GoErr.errBlankProject else none

/-- InstancesRequest.Validate models the Go method:
`if ireq == nil || ireq.Zone == "" { return errBlankZone }` then
`if ireq.Project == "" { return errBlankProject }`. -/
def InstancesRequest.Validate : Option InstancesRequest → Option GoErr
  | none => some GoErr.errBlankZone
  | some ireq =>
    if ireq.Zone = "" then some GoErr.errBlankZone
    else if ireq.Project = "" then some GoErr.errBlankProject
    else none

/-- RecordSetRequest.Validate models the Go method:
`if rreq == nil || rreq.Project == "" { return errEmptyProject }` then
`if rreq.Zone == "" { return errEmptyZone }`. -/
def RecordSetRequest.Validate : Option RecordSetRequest → Option GoErr
  | none => some GoErr.errEmptyProject
  | some rreq =>
    if rreq.Project = "" then some GoErr.errEmptyProject
    else if rreq.Zone = "" then some GoErr.errEmptyZone
    else none

/-- InstancePage mirrors the Go struct InstancePage; α stands for the opaque
item type *compute.Instance. An error page leaves Instances as the zero
value (nil slice, modelled by the empty list). -/
structure InstancePage (α : Type) : Type where
  Err : Option GoErr
  PageNumber : Int
  Instances : List α
deriving DecidableEq

/-- ZonePage mirrors the Go struct ZonePage; ζ stands for *compute.Zone. -/
structure ZonePage (ζ : Type) : Type where
  Err : Option GoErr
  PageNumber : Int
  Zones : List ζ
deriving DecidableEq

/-- RecordSetPage mirrors the Go struct RecordSetPage; ρ stands for
*dns.ResourceRecordSet. -/
structure RecordSetPage (ρ : Type) : Type where
  Err : Option GoErr
  PageNumber : Int
  RecordSets : List ρ
deriving DecidableEq

/-- GoResult is the result of one configured remote list call's Do():
either an error or the pair (Items, NextPageToken). -/
abbrev GoResult (α : Type) : Type := Except GoErr (List α × String)

/-- GoLister abstracts a configured remote list call: its arguments are the
value passed to MaxResults and the value passed to PageToken, and it
returns the result of Do(). Filter / OrderBy / Name configuration is part
of the opaque lister itself (it never changes during a stream). -/
abbrev GoLister (α : Type) : Type := Int → String → GoResult α

/-- FetchCall records the arguments of one remote Do() call, for stating
trace properties (which page size and which token each fetch used). -/
structure FetchCall : Type where
  MaxResults : Int
  PageToken : String
deriving DecidableEq, Repr

/-- Emitted is the observable behaviour of one background listing goroutine,
run for a bounded number of loop iterations (fuel): the pages sent on the
pages channel in order, whether the goroutine returned (so the deferred
close(pagesChan) ran) within that fuel, and the trace of remote calls. -/
structure Emitted (π : Type) : Type where
  pages : List π
  closed : Bool
  calls : List FetchCall
deriving DecidableEq

/-- pageExceedsMax models the closure defined identically inside
ListInstances, ListZones and ListDNSRecordSets:
`if maxPageNumber <= 0 { return false }; return pageNumber > maxPageNumber`. -/
def pageExceedsMax (maxPageNumber pageNumber : Int) : Bool :=
  if maxPageNumber ≤ 0 then false else decide (pageNumber > maxPageNumber)

/-- instancesPageLoop is the for-loop of the goroutine started by
ListInstances. Faithfulness note: the Go body declares
`pageToken := ilr.NextPageToken` with a short variable declaration inside
the loop body, which shadows the outer pageToken; consequently the
recursive call below passes the outer pageToken unchanged to the next
iteration, while the `if pageToken == ""` break tests the inner, shadowing
variable. cancelAt is consulted with the already-incremented page counter,
mirroring the select that follows `pageNumber += 1`. -/
def instancesPageLoop {α : Type} (doFetch : GoLister α)
    (maxResultsPerPage maxPageNumber : Int) (cancelAt : Int → Bool) :
    Nat → String → Int → Emitted (InstancePage α)
  | 0, _, _ => { pages := [], closed := false, calls := [] }
  | fuel + 1, pageToken, pageNumber =>
    let call : FetchCall := { MaxResults := maxResultsPerPage, PageToken := pageToken }
    match doFetch maxResultsPerPage pageToken with
    | Except.error err =>
      { pages := [{ Err := some err, PageNumber := pageNumber, Instances := [] }],
        closed := true, calls := [call] }
    | Except.ok (items, nextPageToken) =>
      let ipage : InstancePage α := { Err := none, PageNumber := pageNumber, Instances := items }
      let pageNumber' := pageNumber + 1
      if pageExceedsMax maxPageNumber pageNumber' then
        { pages := [ipage], closed := true, calls := [call] }
      else if cancelAt pageNumber' then
        { pages := [ipage], closed := true, calls := [call] }
      else if nextPageToken = "" then
        { pages := [ipage], closed := true, calls := [call] }
      else
        let rest := instancesPageLoop doFetch maxResultsPerPage maxPageNumber cancelAt
          fuel pageToken pageNumber'
        { pages := ipage :: rest.pages, closed := rest.closed, calls := call :: rest.calls }

/-- zonesPageLoop is the for-loop of the goroutine started by ListZones,
translated from its own source lines; it carries the same token-shadowing
behaviour as instancesPageLoop (see that doc comment). -/
def zonesPageLoop {ζ : Type} (doFetch : GoLister ζ)
    (maxResultsPerPage maxPageNumber : Int) (cancelAt : Int → Bool) :
    Nat → String → Int → Emitted (ZonePage ζ)
  | 0, _, _ => { pages := [], closed := false, calls := [] }
  | fuel + 1, pageToken, pageNumber =>
    let call : FetchCall := { MaxResults := maxResultsPerPage, PageToken := pageToken }
    match doFetch maxResultsPerPage pageToken with
    | Except.error err =>
      { pages := [{ Err := some err, PageNumber := pageNumber, Zones := [] }],
        closed := true, calls := [call] }
    | Except.ok (items, nextPageToken) =>
      let zpage : ZonePage ζ := { Err := none, PageNumber := pageNumber, Zones := items }
      let pageNumber' := pageNumber + 1
      if pageExceedsMax maxPageNumber pageNumber' then
        { pages := [zpage], closed := true, calls := [call] }
      else if cancelAt pageNumber' then
        { pages := [zpage], closed := true, calls := [call] }
      else if nextPageToken = "" then
        { pages := [zpage], closed := true, calls := [call] }
      else
        let rest := zonesPageLoop doFetch maxResultsPerPage maxPageNumber cancelAt
          fuel pageToken pageNumber'
        { pages := zpage :: rest.pages, closed := rest.closed, calls := call :: rest.calls }

/-- recordSetsPageLoop is the for-loop of the goroutine started by
ListDNSRecordSets, translated from its own source lines; it carries the
same token-shadowing behaviour as instancesPageLoop (see that doc
comment). -/
def recordSetsPageLoop {ρ : Type} (doFetch : GoLister ρ)
    (maxResultsPerPage maxPageNumber : Int) (cancelAt : Int → Bool) :
    Nat → String → Int → Emitted (RecordSetPage ρ)
  | 0, _, _ => { pages := [], closed := false, calls := [] }
  | fuel + 1, pageToken, pageNumber =>
    let call : FetchCall := { MaxResults := maxResultsPerPage, PageToken := pageToken }
    match doFetch maxResultsPerPage pageToken with
    | Except.error err =>
      { pages := [{ Err := some err, PageNumber := pageNumber, RecordSets := [] }],
        closed := true, calls := [call] }
    | Except.ok (items, nextPageToken) =>
      let dPage : RecordSetPage ρ := { Err := none, PageNumber := pageNumber, RecordSets := items }
      let pageNumber' := pageNumber + 1
      if pageExceedsMax maxPageNumber pageNumber' then
        { pages := [dPage], closed := true, calls := [call] }
      else if cancelAt pageNumber' then
        { pages := [dPage], closed := true, calls := [call] }
      else if nextPageToken = "" then
        { pages := [dPage], closed := true, calls := [call] }
      else
        let rest := recordSetsPageLoop doFetch maxResultsPerPage maxPageNumber cancelAt
          fuel pageToken pageNumber'
        { pages := dPage :: rest.pages, closed := rest.closed, calls := call :: rest.calls }

/-- ListInstances models the Go method of the same name: validate the
(possibly nil) request, and on success resolve maxPageNumber and
maxResultsPerPage once and start the page loop at the empty token and page
number 0. The `none, none` match arm is dead code: Validate of a nil
request is never none. -/
def ListInstances {α : Type} (req? : Option InstancesRequest) (doFetch : GoLister α)
    (cancelAt : Int → Bool) (fuel : Nat) : Except GoErr (Emitted (InstancePage α)) :=
  match InstancesRequest.Validate req?, req? with
  | some err, _ => Except.error err
  | none, none => Except.error GoErr.errBlankZone
  | none, some req =>
    let maxPageNumber := req.MaxPages
    let maxResultsPerPage : Int := if req.ResultsPerPage > 0 then req.ResultsPerPage else 40
    Except.ok (instancesPageLoop doFetch maxResultsPerPage maxPageNumber cancelAt fuel "" 0)

/-- ListZones models the Go method of the same name, in the same way as
ListInstances. -/
def ListZones {ζ : Type} (req? : Option ZoneRequest) (doFetch : GoLister ζ)
    (cancelAt : Int → Bool) (fuel : Nat) : Except GoErr (Emitted (ZonePage ζ)) :=
  match ZoneRequest.Validate req?, req? with
  | some err, _ => Except.error err
  | none, none => Except.error GoErr.errBlankProject
  | none, some req =>
    let maxPageNumber := req.MaxPages
    let maxResultsPerPage : Int := if req.ResultsPerPage > 0 then req.ResultsPerPage else 40
    Except.ok (zonesPageLoop doFetch maxResultsPerPage maxPageNumber cancelAt fuel "" 0)

/-- ListDNSRecordSets models the Go method of the same name, in the same way
as ListInstances. -/
def ListDNSRecordSets {ρ : Type} (req? : Option RecordSetRequest) (doFetch : GoLister ρ)
    (cancelAt : Int → Bool) (fuel : Nat) : Except GoErr (Emitted (RecordSetPage ρ)) :=
  match RecordSetRequest.Validate req?, req? with
  | some err, _ => Except.error err
  | none, none => Except.error GoErr.errEmptyProject
  | none, some req =>
    let maxPageNumber := req.MaxPages
    let maxResultsPerPage : Int := if req.ResultsPerPage > 0 then req.ResultsPerPage else 40
    Except.ok (recordSetsPageLoop doFetch maxResultsPerPage maxPageNumber cancelAt fuel "" 0)

/-- Canceler is the state shared by the closure returned from makeCanceler:
whether the sync.Once has fired and whether cancelChan has been closed. -/
structure Canceler : Type where
  onceDone : Bool
  chanClosed : Bool
deriving DecidableEq, Repr

/-- newCanceler is the state right after makeCanceler returns: the Once has
not fired and cancelChan is open. -/
def newCanceler : Canceler :=
  { onceDone := false, chanClosed := false }

/-- closeChan models Go's close on cancelChan: closing an already-closed
channel panics (modelled as an Except.error carrying the panic message). -/
def closeChan (c : Canceler) : Except String Canceler :=
  if c.chanClosed then Except.error "close of closed channel"
  else Except.ok { c with chanClosed := true }

/-- cancelCall models one invocation of the cancel closure returned by
makeCanceler: cancelOnce.Do(func() { close(cancelChan) }) and then
`return err`, where err is never assigned, hence always nil (none). -/
def cancelCall (c : Canceler) : Except String (Canceler × Option GoErr) :=
  if c.onceDone then Except.ok (c, none)
  else
    match closeChan { c with onceDone := true } with
    | Except.error p => Except.error p
    | Except.ok c' => Except.ok (c', none)

/-- cancelSteps iterates cancelCall n times, propagating a panic. -/
def cancelSteps : Nat → Canceler → Except String Canceler
  | 0, c => Except.ok c
  | n + 1, c =>
    match cancelCall c with
    | Except.error p => Except.error p
    | Except.ok (c', _) => cancelSteps n c'

/-- Page is the common shape of the three page structs, used to compare the
streams of the three listing operations with one another. -/
structure Page (α : Type) : Type where
  Err : Option GoErr
  PageNumber : Int
  Items : List α
deriving DecidableEq

/-- InstancePage.toPage forgets the field name Instances. -/
def InstancePage.toPage {α : Type} (p : InstancePage α) : Page α :=
  { Err := p.Err, PageNumber := p.PageNumber, Items := p.Instances }

/-- ZonePage.toPage forgets the field name Zones. -/
def ZonePage.toPage {ζ : Type} (p : ZonePage ζ) : Page ζ :=
  { Err := p.Err, PageNumber := p.PageNumber, Items := p.Zones }

/-- RecordSetPage.toPage forgets the field name RecordSets. -/
def RecordSetPage.toPage {ρ : Type} (p : RecordSetPage ρ) : Page ρ :=
  { Err := p.Err, PageNumber := p.PageNumber, Items := p.RecordSets }

/-- Emitted.mapPages applies a function to every emitted page, leaving the
close flag and the call trace unchanged. -/
def Emitted.mapPages {π π' : Type} (f : π → π') (e : Emitted π) : Emitted π' :=
  { pages := e.pages.map f, closed := e.closed, calls := e.calls }

/-- corePageLoop is the single abstract engine all three loops instantiate:
the same recursion as instancesPageLoop, zonesPageLoop and
recordSetsPageLoop, over the common Page shape. Proof device: each loop is
shown equal to this one (up to field renaming), and stream properties are
established here once. -/
def corePageLoop {α : Type} (doFetch : GoLister α)
    (maxResultsPerPage maxPageNumber : Int) (cancelAt : Int → Bool) :
    Nat → String → Int → Emitted (Page α)
  | 0, _, _ => { pages := [], closed := false, calls := [] }
  | fuel + 1, pageToken, pageNumber =>
    let call : FetchCall := { MaxResults := maxResultsPerPage, PageToken := pageToken }
    match doFetch maxResultsPerPage pageToken with
    | Except.error err =>
      { pages := [{ Err := some err, PageNumber := pageNumber, Items := [] }],
        closed := true, calls := [call] }
    | Except.ok (items, nextPageToken) =>
      let page : Page α := { Err := none, PageNumber := pageNumber, Items := items }
      let pageNumber' := pageNumber + 1
      if pageExceedsMax maxPageNumber pageNumber' then
        { pages := [page], closed := true, calls := [call] }
      else if cancelAt pageNumber' then
        { pages := [page], closed := true, calls := [call] }
      else if nextPageToken = "" then
        { pages := [page], closed := true, calls := [call] }
      else
        let rest := corePageLoop doFetch maxResultsPerPage maxPageNumber cancelAt
          fuel pageToken pageNumber'
        { pages := page :: rest.pages, closed := rest.closed, calls := call :: rest.calls }

/-- listerOf builds a lister from an explicit finite page sequence: page i
is served for the token representing i (the empty token for page 0), and
the continuation token after the last page is empty. This realises "a
lister that returns k pages before an empty continuation token". -/
def listerOf {α : Type} (pages : List (List α)) : GoLister α :=
  fun _ tok =>
    let serve : Nat → GoResult α := fun i =>
      match pages.get? i with
      | some items =>
        Except.ok (items, if i + 1 < pages.length then toString (i + 1) else "")
      | none => Except.error (GoErr.remote "invalid page token")
    if tok = "" then serve 0
    else
      match tok.toNat? with
      | some i => serve i
      | none => Except.error (GoErr.remote "invalid page token")

/-- neverCancel is the schedule of a consumer that never invokes cancel. -/
def neverCancel : Int → Bool :=
  fun _ => false

/-- instancesPageLoop is the core engine at the InstancePage field names. -/
theorem instancesPageLoop_eq_core {α : Type} (doFetch : GoLister α) (mr mp : Int)
    (c : Int → Bool) : ∀ (fuel : Nat) (tok : String) (n : Int),
    (instancesPageLoop doFetch mr mp c fuel tok n).mapPages InstancePage.toPage
      = corePageLoop doFetch mr mp c fuel tok n := by
  intro fuel
  induction fuel with
  | zero => intro tok n; rfl
  | succ fuel ih =>
    intro tok n
    simp only [instancesPageLoop, corePageLoop]
    cases hf : doFetch mr tok with
    | error err => simp [Emitted.mapPages, InstancePage.toPage]
    | ok pr =>
      obtain ⟨items, nextTok⟩ := pr
      by_cases h1 : pageExceedsMax mp (n + 1) = true
      · simp [h1, Emitted.mapPages, InstancePage.toPage]
      · by_cases h2 : c (n + 1) = true
        · simp [h1, h2, Emitted.mapPages, InstancePage.toPage]
        · by_cases h3 : nextTok = ""
          · simp [h1, h2, h3, Emitted.mapPages, InstancePage.toPage]
          · have ihe := ih tok (n + 1)
            simp [h1, h2, h3, Emitted.mapPages, InstancePage.toPage]
            exact ⟨congrArg Emitted.pages ihe, congrArg Emitted.closed ihe,
              congrArg Emitted.calls ihe⟩

/-- zonesPageLoop is the core engine at the ZonePage field names. -/
theorem zonesPageLoop_eq_core {ζ : Type} (doFetch : GoLister ζ) (mr mp : Int)
    (c : Int → Bool) : ∀ (fuel : Nat) (tok : String) (n : Int),
    (zonesPageLoop doFetch mr mp c fuel tok n).mapPages ZonePage.toPage
      = corePageLoop doFetch mr mp c fuel tok n := by
  intro fuel
  induction fuel with
  | zero => intro tok n; rfl
  | succ fuel ih =>
    intro tok n
    simp only [zonesPageLoop, corePageLoop]
    cases hf : doFetch mr tok with
    | error err => simp [Emitted.mapPages, ZonePage.toPage]
    | ok pr =>
      obtain ⟨items, nextTok⟩ := pr
      by_cases h1 : pageExceedsMax mp (n + 1) = true
      · simp [h1, Emitted.mapPages, ZonePage.toPage]
      · by_cases h2 : c (n + 1) = true
        · simp [h1, h2, Emitted.mapPages, ZonePage.toPage]
        · by_cases h3 : nextTok = ""
          · simp [h1, h2, h3, Emitted.mapPages, ZonePage.toPage]
          · have ihe := ih tok (n + 1)
            simp [h1, h2, h3, Emitted.mapPages, ZonePage.toPage]
            exact ⟨congrArg Emitted.pages ihe, congrArg Emitted.closed ihe,
              congrArg Emitted.calls ihe⟩

/-- recordSetsPageLoop is the core engine at the RecordSetPage field names. -/
theorem recordSetsPageLoop_eq_core {ρ : Type} (doFetch : GoLister ρ) (mr mp : Int)
    (c : Int → Bool) : ∀ (fuel : Nat) (tok : String) (n : Int),
    (recordSetsPageLoop doFetch mr mp c fuel tok n).mapPages RecordSetPage.toPage
      = corePageLoop doFetch mr mp c fuel tok n := by
  intro fuel
  induction fuel with
  | zero => intro tok n; rfl
  | succ fuel ih =>
    intro tok n
    simp only [recordSetsPageLoop, corePageLoop]
    cases hf : doFetch mr tok with
    | error err => simp [Emitted.mapPages, RecordSetPage.toPage]
    | ok pr =>
      obtain ⟨items, nextTok⟩ := pr
      by_cases h1 : pageExceedsMax mp (n + 1) = true
      · simp [h1, Emitted.mapPages, RecordSetPage.toPage]
      · by_cases h2 : c (n + 1) = true
        · simp [h1, h2, Emitted.mapPages, RecordSetPage.toPage]
        · by_cases h3 : nextTok = ""
          · simp [h1, h2, h3, Emitted.mapPages, RecordSetPage.toPage]
          · have ihe := ih tok (n + 1)
            simp [h1, h2, h3, Emitted.mapPages, RecordSetPage.toPage]
            exact ⟨congrArg Emitted.pages ihe, congrArg Emitted.closed ihe,
              congrArg Emitted.calls ihe⟩

/-- Pages emitted by the engine, started at counter n, are numbered
n, n+1, n+2, ... in emission order. -/
theorem core_pageNumbers {α : Type} (doFetch : GoLister α) (mr mp : Int) (c : Int → Bool) :
    ∀ (fuel : Nat) (tok : String) (n : Int),
    (corePageLoop doFetch mr mp c fuel tok n).pages.map Page.PageNumber
      = (List.range (corePageLoop doFetch mr mp c fuel tok n).pages.length).map
          (fun i : Nat => n + (i : Int)) := by
  intro fuel
  induction fuel with
  | zero => intro tok n; rfl
  | succ fuel ih =>
    intro tok n
    have hfun : ((fun i : Nat => n + (i : Int)) ∘ Nat.succ)
        = (fun i : Nat => (n + 1) + (i : Int)) := by
      funext i
      simp only [Function.comp]
      push_cast
      ring
    simp only [corePageLoop]
    cases hf : doFetch mr tok with
    | error err => simp [List.range_succ]
    | ok pr =>
      obtain ⟨items, nextTok⟩ := pr
      by_cases h1 : pageExceedsMax mp (n + 1) = true
      · simp [h1, List.range_succ]
      · by_cases h2 : c (n + 1) = true
        · simp [h1, h2, List.range_succ]
        · by_cases h3 : nextTok = ""
          · simp [h1, h2, h3, List.range_succ]
          · have ihe := ih tok (n + 1)
            simp only [h1, h2, h3, if_false, Bool.false_eq_true, if_neg, List.map_cons,
              List.length_cons, List.range_succ_eq_map, List.map_map, hfun]
            simp only [Nat.cast_zero, add_zero]
            exact congrArg (List.cons n) ihe

/-- Every remote call of one engine run uses the same MaxResults value and
the same page token, namely the ones the run started with: the MaxResults
because it is configured once before the loop, the token because the Go
loop shadows its token variable and never updates the one it fetches
with. -/
theorem core_calls_const {α : Type} (doFetch : GoLister α) (mr mp : Int) (c : Int → Bool) :
    ∀ (fuel : Nat) (tok : String) (n : Int),
    (corePageLoop doFetch mr mp c fuel tok n).calls
      = List.replicate (corePageLoop doFetch mr mp c fuel tok n).calls.length
          { MaxResults := mr, PageToken := tok } := by
  intro fuel
  induction fuel with
  | zero => intro tok n; rfl
  | succ fuel ih =>
    intro tok n
    simp only [corePageLoop]
    cases hf : doFetch mr tok with
    | error err => simp
    | ok pr =>
      obtain ⟨items, nextTok⟩ := pr
      by_cases h1 : pageExceedsMax mp (n + 1) = true
      · simp [h1]
      · by_cases h2 : c (n + 1) = true
        · simp [h1, h2]
        · by_cases h3 : nextTok = ""
          · simp [h1, h2, h3]
          · have ihe := ih tok (n + 1)
            simp only [h1, h2, h3, if_false, Bool.false_eq_true, if_neg, List.length_cons,
              List.replicate_succ]
            exact congrArg (List.cons { MaxResults := mr, PageToken := tok }) ihe

/-- An emitted page carrying an error is always the last page of its
stream, and the stream is then closed. -/
theorem core_err_last {α : Type} (doFetch : GoLister α) (mr mp : Int) (c : Int → Bool) :
    ∀ (fuel : Nat) (tok : String) (n : Int) (i : Nat) (p : Page α),
    (corePageLoop doFetch mr mp c fuel tok n).pages.get? i = some p →
    p.Err.isSome = true →
    i + 1 = (corePageLoop doFetch mr mp c fuel tok n).pages.length
      ∧ (corePageLoop doFetch mr mp c fuel tok n).closed = true := by
  intro fuel
  induction fuel with
  | zero => intro tok n i p hget _; simp [corePageLoop] at hget
  | succ fuel ih =>
    intro tok n i p hget hsome
    simp only [corePageLoop] at hget ⊢
    cases hf : doFetch mr tok with
    | error err =>
      simp only [hf] at hget ⊢
      cases i with
      | zero => simp
      | succ i => simp at hget
    | ok pr =>
      obtain ⟨items, nextTok⟩ := pr
      by_cases h1 : pageExceedsMax mp (n + 1) = true
      · simp only [hf, h1, if_true] at hget ⊢
        cases i with
        | zero =>
          simp only [List.get?] at hget
          cases hget
          simp at hsome
        | succ i => simp at hget
      · by_cases h2 : c (n + 1) = true
        · simp only [hf, h1, h2, if_false, if_true, Bool.false_eq_true] at hget ⊢
          cases i with
          | zero =>
            simp only [List.get?] at hget
            cases hget
            simp at hsome
          | succ i => simp at hget
        · by_cases h3 : nextTok = ""
          · simp only [hf, h1, h2, h3, if_false, if_true, Bool.false_eq_true] at hget ⊢
            cases i with
            | zero =>
              simp only [List.get?] at hget
              cases hget
              simp at hsome
            | succ i => simp at hget
          · simp only [hf, h1, h2, h3, if_false, Bool.false_eq_true] at hget ⊢
            cases i with
            | zero =>
              simp only [List.get?] at hget
              cases hget
              simp at hsome
            | succ i =>
              simp only [List.get?] at hget
              have := ih tok (n + 1) i p hget hsome
              simp only [List.length_cons]
              exact ⟨by omega, this.2⟩

/-- If the fetch at the current token fails, the engine emits exactly one
further page: it carries the current counter and the error and the stream
then closes. -/
theorem core_first_error {α : Type} (doFetch : GoLister α) (mr mp : Int) (c : Int → Bool)
    (fuel : Nat) (tok : String) (n : Int) (err : GoErr)
    (hf : doFetch mr tok = Except.error err) :
    corePageLoop doFetch mr mp c (fuel + 1) tok n
      = { pages := [{ Err := some err, PageNumber := n, Items := [] }],
          closed := true,
          calls := [{ MaxResults := mr, PageToken := tok }] } := by
  simp only [corePageLoop, hf]

/-- If the fetch at the current token succeeds and cancellation is observed
at the following checkpoint, the fetched page is still delivered: the
engine emits it (with no error) and then terminates with no further page.
This also holds when the max-page bound cuts the stream at the same
point. -/
theorem core_cancel_step {α : Type} (doFetch : GoLister α) (mr mp : Int) (c : Int → Bool)
    (fuel : Nat) (tok : String) (n : Int) (items : List α) (nextTok : String)
    (hf : doFetch mr tok = Except.ok (items, nextTok)) (hc : c (n + 1) = true) :
    corePageLoop doFetch mr mp c (fuel + 1) tok n
      = { pages := [{ Err := none, PageNumber := n, Items := items }],
          closed := true,
          calls := [{ MaxResults := mr, PageToken := tok }] } := by
  simp only [corePageLoop, hf]
  by_cases h1 : pageExceedsMax mp (n + 1) = true
  · simp [h1]
  · simp [h1, hc]

/-- With no page bound and no cancellation, a lister whose fetch at the
start token succeeds with a non-empty continuation token makes the engine
loop forever: because the loop never updates the token it fetches with, it
repeats the same fetch each iteration, emitting for every unit of fuel one
more copy of the same items under the next page number, and the stream
never closes. -/
theorem core_repeat {α : Type} (doFetch : GoLister α) (mr mp : Int) (c : Int → Bool)
    (tok : String) (items : List α) (nextTok : String)
    (hf : doFetch mr tok = Except.ok (items, nextTok)) (hne : nextTok ≠ "")
    (hcancel : ∀ i, c i = false) (hmp : mp ≤ 0) :
    ∀ (fuel : Nat) (n : Int),
    corePageLoop doFetch mr mp c fuel tok n
      = { pages := (List.range fuel).map
            (fun i : Nat => { Err := none, PageNumber := n + (i : Int), Items := items }),
          closed := false,
          calls := List.replicate fuel { MaxResults := mr, PageToken := tok } } := by
  intro fuel
  induction fuel with
  | zero => intro n; rfl
  | succ fuel ih =>
    intro n
    have h1 : pageExceedsMax mp (n + 1) = false := by
      simp [pageExceedsMax, hmp]
    have hfun : ((fun i : Nat =>
          ({ Err := none, PageNumber := n + (i : Int), Items := items } : Page α)) ∘ Nat.succ)
        = (fun i : Nat =>
          ({ Err := none, PageNumber := (n + 1) + (i : Int), Items := items } : Page α)) := by
      funext i
      simp only [Function.comp]
      congr 1
      push_cast
      ring
    simp only [corePageLoop, hf, h1, hcancel (n + 1), hne, if_false, Bool.false_eq_true,
      ih (n + 1), List.range_succ_eq_map, List.map_cons, List.map_map, hfun,
      List.replicate_succ, Nat.cast_zero, add_zero]

/-- One continuing iteration of the engine: fetch succeeded, neither the
page bound nor cancellation nor an empty continuation token stops the loop,
so the fetched page is emitted and the loop recurses with the same (never
updated) token and the incremented counter. -/
theorem core_step_continue {α : Type} (doFetch : GoLister α) (mr mp : Int) (c : Int → Bool)
    (fuel : Nat) (tok : String) (n : Int) (items : List α) (nextTok : String)
    (hf : doFetch mr tok = Except.ok (items, nextTok))
    (h1 : pageExceedsMax mp (n + 1) = false) (h2 : c (n + 1) = false)
    (hne : nextTok ≠ "") :
    corePageLoop doFetch mr mp c (fuel + 1) tok n
      = { pages := { Err := none, PageNumber := n, Items := items }
            :: (corePageLoop doFetch mr mp c fuel tok (n + 1)).pages,
          closed := (corePageLoop doFetch mr mp c fuel tok (n + 1)).closed,
          calls := { MaxResults := mr, PageToken := tok }
            :: (corePageLoop doFetch mr mp c fuel tok (n + 1)).calls } := by
  simp only [corePageLoop, hf, h1, h2, hne, if_false, Bool.false_eq_true]

/-- With a positive page bound mp and no cancellation, a lister whose fetch
at the start token succeeds with a non-empty continuation token makes the
engine emit, counting from counter value n with n ≤ mp, exactly
(mp - n) + 1 further pages (all error-free, all with the same items because
of the unchanged token) and then close: the loop stops only when the
incremented counter strictly exceeds mp. -/
theorem core_maxpages {α : Type} (doFetch : GoLister α) (mr mp : Int) (c : Int → Bool)
    (tok : String) (items : List α) (nextTok : String)
    (hf : doFetch mr tok = Except.ok (items, nextTok)) (hne : nextTok ≠ "")
    (hcancel : ∀ i, c i = false) (hmp : 0 < mp) :
    ∀ (fuel : Nat) (n : Int), 0 ≤ n → n ≤ mp → (mp - n).toNat < fuel →
    corePageLoop doFetch mr mp c fuel tok n
      = { pages := (List.range ((mp - n).toNat + 1)).map
            (fun i : Nat => { Err := none, PageNumber := n + (i : Int), Items := items }),
          closed := true,
          calls := List.replicate ((mp - n).toNat + 1)
            { MaxResults := mr, PageToken := tok } } := by
  intro fuel
  induction fuel with
  | zero => intro n _ _ hlt; omega
  | succ fuel ih =>
    intro n hn0 hnmp hlt
    by_cases hstop : n = mp
    · have h1 : pageExceedsMax mp (n + 1) = true := by
        simp [pageExceedsMax, hstop]
        omega
      have hcnt : (mp - n).toNat + 1 = 1 := by omega
      simp only [corePageLoop, hf, h1, if_true, hcnt, List.range_succ, List.range_zero,
        List.nil_append, List.map_cons, List.map_nil, Nat.cast_zero, add_zero,
        List.replicate_succ, List.replicate_zero]
    · have hlt2 : n < mp := lt_of_le_of_ne hnmp hstop
      have h1 : pageExceedsMax mp (n + 1) = false := by
        simp [pageExceedsMax]
        omega
      have hrec := ih (n + 1) (by omega) (by omega) (by omega)
      have hcnt : (mp - n).toNat + 1 = ((mp - (n + 1)).toNat + 1) + 1 := by omega
      have hshift : (List.range ((mp - n).toNat + 1)).map
            (fun i : Nat => ({ Err := none, PageNumber := n + (i : Int), Items := items } : Page α))
          = { Err := none, PageNumber := n, Items := items }
              :: (List.range ((mp - (n + 1)).toNat + 1)).map
                (fun i : Nat =>
                  ({ Err := none, PageNumber := (n + 1) + (i : Int), Items := items } : Page α)) := by
        rw [hcnt, List.range_succ_eq_map, List.map_cons, List.map_map]
        simp only [Nat.cast_zero, add_zero]
        refine congrArg (List.cons _) (List.map_congr_left ?_)
        intro i _
        simp only [Function.comp]
        congr 1
        push_cast
        ring
      have hrepl : List.replicate ((mp - n).toNat + 1)
            ({ MaxResults := mr, PageToken := tok } : FetchCall)
          = { MaxResults := mr, PageToken := tok }
              :: List.replicate ((mp - (n + 1)).toNat + 1)
                ({ MaxResults := mr, PageToken := tok } : FetchCall) := by
        rw [hcnt, List.replicate_succ]
      rw [core_step_continue doFetch mr mp c fuel tok n items nextTok hf h1 (hcancel (n + 1)) hne,
        hrec, hshift, hrepl]

/-- cancelSteps leaves the fully-triggered canceler unchanged and never
panics, for any number of further calls. -/
theorem cancelSteps_triggered : ∀ (n : Nat),
    cancelSteps n { onceDone := true, chanClosed := true }
      = Except.ok { onceDone := true, chanClosed := true } := by
  intro n
  induction n with
  | zero => rfl
  | succ n ih =>
    simp only [cancelSteps, cancelCall, if_true]
    exact ih

/-- Claim C10: calling any of the three listing operations with a nil
request pointer returns that operation's "required field missing"
validation error instead of dereferencing the nil pointer, because each
Validate method checks its receiver for nil before reading any field
(ZoneRequest yields errBlankProject, InstancesRequest errBlankZone,
RecordSetRequest errEmptyProject). -/
theorem nil_request_yields_validation_error (α ζ ρ : Type) (Li : GoLister α)
    (Lz : GoLister ζ) (Lr : GoLister ρ) (c : Int → Bool) (fuel : Nat) :
    ZoneRequest.Validate none = some GoErr.errBlankProject
      ∧ InstancesRequest.Validate none = some GoErr.errBlankZone
      ∧ RecordSetRequest.Validate none = some GoErr.errEmptyProject
      ∧ ListZones none Lz c fuel = Except.error GoErr.errBlankProject
      ∧ ListInstances none Li c fuel = Except.error GoErr.errBlankZone
      ∧ ListDNSRecordSets none Lr c fuel = Except.error GoErr.errEmptyProject := by
  exact ⟨rfl, rfl, rfl, rfl, rfl, rfl⟩

/-- Claim C7: the cancel function returned by makeCanceler is idempotent:
the first invocation closes cancelChan (triggering the cancel signal) and
returns a nil error; any number of further invocations panic nowhere
(sync.Once skips the close of the already-closed channel), leave the state
unchanged, and also return a nil error. The background loop observes only
whether cancelChan is closed, which after the first call never changes
again, so repeated calls have no observable effect on the stream. -/
theorem cancelFn_idempotent (n : Nat) :
    cancelCall newCanceler
        = Except.ok ({ onceDone := true, chanClosed := true }, none)
      ∧ cancelSteps (n + 1) newCanceler
        = Except.ok { onceDone := true, chanClosed := true }
      ∧ cancelCall { onceDone := true, chanClosed := true }
        = Except.ok ({ onceDone := true, chanClosed := true }, none) := by
  refine ⟨rfl, ?_, rfl⟩
  simp only [cancelSteps, cancelCall, newCanceler, if_false, closeChan, Bool.false_eq_true]
  exact cancelSteps_triggered n

/-- Claim C8: a listing request with a missing required identifying field
(blank project for zones; blank zone or project for instances and record
sets) makes the listing call return the validation error synchronously:
the result is that error for every lister, cancellation schedule and fuel,
so no page stream is produced and no fetch is ever attempted. -/
theorem invalid_request_fails_synchronously (α ζ ρ : Type) (Li : GoLister α)
    (Lz : GoLister ζ) (Lr : GoLister ρ) (c : Int → Bool) (fuel : Nat)
    (zreq? : Option ZoneRequest) (ireq? : Option InstancesRequest)
    (rreq? : Option RecordSetRequest) (e1 e2 e3 : GoErr) :
    (ZoneRequest.Validate zreq? = some e1 →
      ListZones zreq? Lz c fuel = Except.error e1)
      ∧ (InstancesRequest.Validate ireq? = some e2 →
        ListInstances ireq? Li c fuel = Except.error e2)
      ∧ (RecordSetRequest.Validate rreq? = some e3 →
        ListDNSRecordSets rreq? Lr c fuel = Except.error e3) := by
  refine ⟨fun h => ?_, fun h => ?_, fun h => ?_⟩
  · simp only [ListZones, h]
  · simp only [ListInstances, h]
  · simp only [ListDNSRecordSets, h]

/-- blankProjectZoneReq is a zones request whose required Project is blank. -/
def blankProjectZoneReq : ZoneRequest :=
  { Project := "", OrderBy := "", Filter := "", MaxPages := 0, ResultsPerPage := 0 }

/-- blankZoneInstancesReq is an instances request whose required Zone is blank. -/
def blankZoneInstancesReq : InstancesRequest :=
  { Project := "p", OrderBy := "", Filter := "", MaxPages := 0, ResultsPerPage := 0, Zone := "" }

/-- blankZoneRecordSetReq is a record-set request whose required Zone is blank. -/
def blankZoneRecordSetReq : RecordSetRequest :=
  { Project := "p", Zone := "", DomainName := "", MaxPages := 0, ResultsPerPage := 0 }

/-- Witness for invalid_request_fails_synchronously: a blank project for
zones and a blank zone for instances and for record sets are all rejected
with the matching sentinel error. -/
theorem invalid_request_fails_synchronously_witness :
    ListZones (some blankProjectZoneReq) (listerOf ([] : List (List Nat))) neverCancel 3
      = Except.error GoErr.errBlankProject
      ∧ ListInstances (some blankZoneInstancesReq) (listerOf ([] : List (List Nat))) neverCancel 3
        = Except.error GoErr.errBlankZone
      ∧ ListDNSRecordSets (some blankZoneRecordSetReq) (listerOf ([] : List (List Nat))) neverCancel 3
        = Except.error GoErr.errEmptyZone := by
  have h := invalid_request_fails_synchronously Nat Nat Nat
    (listerOf ([] : List (List Nat))) (listerOf ([] : List (List Nat)))
    (listerOf ([] : List (List Nat))) neverCancel 3
    (some blankProjectZoneReq) (some blankZoneInstancesReq) (some blankZoneRecordSetReq)
    GoErr.errBlankProject GoErr.errBlankZone GoErr.errEmptyZone
  exact ⟨h.1 (by decide), h.2.1 (by decide), h.2.2 (by decide)⟩

/-- Pages of an engine run started at counter 0 are numbered 0, 1, 2, ... -/
theorem core_pageNumbers_zero {α : Type} (doFetch : GoLister α) (mr mp : Int)
    (c : Int → Bool) (fuel : Nat) (tok : String) :
    (corePageLoop doFetch mr mp c fuel tok 0).pages.map Page.PageNumber
      = (List.range (corePageLoop doFetch mr mp c fuel tok 0).pages.length).map
          (fun i : Nat => (i : Int)) := by
  have h := core_pageNumbers doFetch mr mp c fuel tok 0
  simpa using h

/-- Claim C5: in each of the three streams, the page numbers of the emitted
pages are exactly 0, 1, 2, ... in emission order: the i-th emitted page
carries page number i, so numbering starts at 0 and increases by 1 with no
gaps and no repeats. -/
theorem stream_pageNumbers_consecutive (α ζ ρ : Type) (Li : GoLister α)
    (Lz : GoLister ζ) (Lr : GoLister ρ) (mr mp : Int) (c : Int → Bool) (fuel : Nat) :
    (instancesPageLoop Li mr mp c fuel "" 0).pages.map InstancePage.PageNumber
      = (List.range (instancesPageLoop Li mr mp c fuel "" 0).pages.length).map
          (fun i : Nat => (i : Int))
      ∧ (zonesPageLoop Lz mr mp c fuel "" 0).pages.map ZonePage.PageNumber
        = (List.range (zonesPageLoop Lz mr mp c fuel "" 0).pages.length).map
            (fun i : Nat => (i : Int))
      ∧ (recordSetsPageLoop Lr mr mp c fuel "" 0).pages.map RecordSetPage.PageNumber
        = (List.range (recordSetsPageLoop Lr mr mp c fuel "" 0).pages.length).map
            (fun i : Nat => (i : Int)) := by
  refine ⟨?_, ?_, ?_⟩
  · have hp := congrArg Emitted.pages (instancesPageLoop_eq_core Li mr mp c fuel "" 0)
    simp only [Emitted.mapPages] at hp
    have hn := core_pageNumbers_zero Li mr mp c fuel ""
    have hc : (InstancePage.PageNumber : InstancePage α → Int)
        = Page.PageNumber ∘ InstancePage.toPage := rfl
    rw [hc, ← List.map_map, hp, hn, ← hp, List.length_map]
  · have hp := congrArg Emitted.pages (zonesPageLoop_eq_core Lz mr mp c fuel "" 0)
    simp only [Emitted.mapPages] at hp
    have hn := core_pageNumbers_zero Lz mr mp c fuel ""
    have hc : (ZonePage.PageNumber : ZonePage ζ → Int)
        = Page.PageNumber ∘ ZonePage.toPage := rfl
    rw [hc, ← List.map_map, hp, hn, ← hp, List.length_map]
  · have hp := congrArg Emitted.pages (recordSetsPageLoop_eq_core Lr mr mp c fuel "" 0)
    simp only [Emitted.mapPages] at hp
    have hn := core_pageNumbers_zero Lr mr mp c fuel ""
    have hc : (RecordSetPage.PageNumber : RecordSetPage ρ → Int)
        = Page.PageNumber ∘ RecordSetPage.toPage := rfl
    rw [hc, ← List.map_map, hp, hn, ← hp, List.length_map]

/-- Claim C3: in each of the three streams, a page whose fetch failed
carries the current page counter together with the error, and it is the
last page emitted before the stream closes; in particular, when the very
first fetch fails the stream is exactly one page, numbered 0, with its
error set (and, the page being fresh, no items). -/
theorem error_page_is_terminal (α ζ ρ : Type) (Li : GoLister α) (Lz : GoLister ζ)
    (Lr : GoLister ρ) (mr mp : Int) (c : Int → Bool) (fuel : Nat) :
    (∀ (tok : String) (n : Int) (i : Nat) (p : InstancePage α),
      (instancesPageLoop Li mr mp c fuel tok n).pages.get? i = some p →
      p.Err.isSome = true →
      i + 1 = (instancesPageLoop Li mr mp c fuel tok n).pages.length
        ∧ (instancesPageLoop Li mr mp c fuel tok n).closed = true)
      ∧ (∀ (e : GoErr) (fuel2 : Nat), Li mr "" = Except.error e →
        instancesPageLoop Li mr mp c (fuel2 + 1) "" 0
          = { pages := [{ Err := some e, PageNumber := 0, Instances := [] }],
              closed := true, calls := [{ MaxResults := mr, PageToken := "" }] })
      ∧ (∀ (tok : String) (n : Int) (i : Nat) (p : ZonePage ζ),
        (zonesPageLoop Lz mr mp c fuel tok n).pages.get? i = some p →
        p.Err.isSome = true →
        i + 1 = (zonesPageLoop Lz mr mp c fuel tok n).pages.length
          ∧ (zonesPageLoop Lz mr mp c fuel tok n).closed = true)
      ∧ (∀ (e : GoErr) (fuel2 : Nat), Lz mr "" = Except.error e →
        zonesPageLoop Lz mr mp c (fuel2 + 1) "" 0
          = { pages := [{ Err := some e, PageNumber := 0, Zones := [] }],
              closed := true, calls := [{ MaxResults := mr, PageToken := "" }] })
      ∧ (∀ (tok : String) (n : Int) (i : Nat) (p : RecordSetPage ρ),
        (recordSetsPageLoop Lr mr mp c fuel tok n).pages.get? i = some p →
        p.Err.isSome = true →
        i + 1 = (recordSetsPageLoop Lr mr mp c fuel tok n).pages.length
          ∧ (recordSetsPageLoop Lr mr mp c fuel tok n).closed = true)
      ∧ (∀ (e : GoErr) (fuel2 : Nat), Lr mr "" = Except.error e →
        recordSetsPageLoop Lr mr mp c (fuel2 + 1) "" 0
          = { pages := [{ Err := some e, PageNumber := 0, RecordSets := [] }],
              closed := true, calls := [{ MaxResults := mr, PageToken := "" }] }) := by
  refine ⟨?_, ?_, ?_, ?_, ?_, ?_⟩
  · intro tok n i p hget hsome
    have hi := instancesPageLoop_eq_core Li mr mp c fuel tok n
    have hp := congrArg Emitted.pages hi
    have hcl := congrArg Emitted.closed hi
    simp only [Emitted.mapPages] at hp hcl
    have hg2 : (corePageLoop Li mr mp c fuel tok n).pages.get? i
        = some (InstancePage.toPage p) := by
      rw [← hp, List.get?_map, hget]
      rfl
    have hres := core_err_last Li mr mp c fuel tok n i _ hg2 hsome
    have hlen : (corePageLoop Li mr mp c fuel tok n).pages.length
        = (instancesPageLoop Li mr mp c fuel tok n).pages.length := by
      rw [← hp, List.length_map]
    exact ⟨by rw [← hlen, hres.1], by rw [hcl, hres.2]⟩
  · intro e fuel2 hf
    simp only [instancesPageLoop, hf]
  · intro tok n i p hget hsome
    have hi := zonesPageLoop_eq_core Lz mr mp c fuel tok n
    have hp := congrArg Emitted.pages hi
    have hcl := congrArg Emitted.closed hi
    simp only [Emitted.mapPages] at hp hcl
    have hg2 : (corePageLoop Lz mr mp c fuel tok n).pages.get? i
        = some (ZonePage.toPage p) := by
      rw [← hp, List.get?_map, hget]
      rfl
    have hres := core_err_last Lz mr mp c fuel tok n i _ hg2 hsome
    have hlen : (corePageLoop Lz mr mp c fuel tok n).pages.length
        = (zonesPageLoop Lz mr mp c fuel tok n).pages.length := by
      rw [← hp, List.length_map]
    exact ⟨by rw [← hlen, hres.1], by rw [hcl, hres.2]⟩
  · intro e fuel2 hf
    simp only [zonesPageLoop, hf]
  · intro tok n i p hget hsome
    have hi := recordSetsPageLoop_eq_core Lr mr mp c fuel tok n
    have hp := congrArg Emitted.pages hi
    have hcl := congrArg Emitted.closed hi
    simp only [Emitted.mapPages] at hp hcl
    have hg2 : (corePageLoop Lr mr mp c fuel tok n).pages.get? i
        = some (RecordSetPage.toPage p) := by
      rw [← hp, List.get?_map, hget]
      rfl
    have hres := core_err_last Lr mr mp c fuel tok n i _ hg2 hsome
    have hlen : (corePageLoop Lr mr mp c fuel tok n).pages.length
        = (recordSetsPageLoop Lr mr mp c fuel tok n).pages.length := by
      rw [← hp, List.length_map]
    exact ⟨by rw [← hlen, hres.1], by rw [hcl, hres.2]⟩
  · intro e fuel2 hf
    simp only [recordSetsPageLoop, hf]

/-- failLister models a remote API whose every fetch fails. -/
def failLister : GoLister Nat :=
  fun _ _ => Except.error (GoErr.remote "boom")

/-- Witness for error_page_is_terminal: when the very first fetch fails,
the stream is one page, numbered 0, carrying the error, and it closes. -/
theorem error_page_is_terminal_witness :
    (0 + 1 = (instancesPageLoop failLister 40 0 neverCancel 1 "" 0).pages.length
      ∧ (instancesPageLoop failLister 40 0 neverCancel 1 "" 0).closed = true)
      ∧ instancesPageLoop failLister 40 0 neverCancel 1 "" 0
        = { pages := [{ Err := some (GoErr.remote "boom"), PageNumber := 0,
                        Instances := [] }],
            closed := true, calls := [{ MaxResults := 40, PageToken := "" }] } := by
  have h := error_page_is_terminal Nat Nat Nat failLister failLister failLister
    40 0 neverCancel 1
  exact ⟨h.1 "" 0 0 { Err := some (GoErr.remote "boom"), PageNumber := 0, Instances := [] }
    (by decide) (by decide), h.2.1 (GoErr.remote "boom") 0 rfl⟩

/-- Claim C4: in each of the three streams, the cancel signal is consulted
only at the throttle checkpoint that follows the emission of a fetched
page: when the fetch at the current token succeeds and cancellation is
observed at the following checkpoint, the fetched page is still emitted
(error-free), and the loop then terminates with no further page and no
synthesized error page. This also holds when the max-page bound stops the
loop at the same point, since that check precedes the select. -/
theorem fetched_page_delivered_before_cancel (α ζ ρ : Type) (Li : GoLister α)
    (Lz : GoLister ζ) (Lr : GoLister ρ) (mr mp : Int) (c : Int → Bool) (fuel : Nat)
    (tok : String) (n : Int) (itemsI : List α) (itemsZ : List ζ) (itemsR : List ρ)
    (nextI nextZ nextR : String) (hc : c (n + 1) = true) :
    (Li mr tok = Except.ok (itemsI, nextI) →
      instancesPageLoop Li mr mp c (fuel + 1) tok n
        = { pages := [{ Err := none, PageNumber := n, Instances := itemsI }],
            closed := true, calls := [{ MaxResults := mr, PageToken := tok }] })
      ∧ (Lz mr tok = Except.ok (itemsZ, nextZ) →
        zonesPageLoop Lz mr mp c (fuel + 1) tok n
          = { pages := [{ Err := none, PageNumber := n, Zones := itemsZ }],
              closed := true, calls := [{ MaxResults := mr, PageToken := tok }] })
      ∧ (Lr mr tok = Except.ok (itemsR, nextR) →
        recordSetsPageLoop Lr mr mp c (fuel + 1) tok n
          = { pages := [{ Err := none, PageNumber := n, RecordSets := itemsR }],
              closed := true, calls := [{ MaxResults := mr, PageToken := tok }] }) := by
  refine ⟨fun hf => ?_, fun hf => ?_, fun hf => ?_⟩
  · simp only [instancesPageLoop, hf]
    by_cases h1 : pageExceedsMax mp (n + 1) = true
    · simp [h1]
    · simp [h1, hc]
  · simp only [zonesPageLoop, hf]
    by_cases h1 : pageExceedsMax mp (n + 1) = true
    · simp [h1]
    · simp [h1, hc]
  · simp only [recordSetsPageLoop, hf]
    by_cases h1 : pageExceedsMax mp (n + 1) = true
    · simp [h1]
    · simp [h1, hc]

/-- alwaysCancel is the schedule of a consumer whose cancel call happened
before the loop reached its first checkpoint. -/
def alwaysCancel : Int → Bool :=
  fun _ => true

/-- Witness for fetched_page_delivered_before_cancel: with cancellation
already triggered, a 2-page lister still has its first fetched page
delivered, and the stream then closes with only that page. -/
theorem fetched_page_delivered_before_cancel_witness :
    instancesPageLoop (listerOf [[1, 2], [3]]) 40 0 alwaysCancel 5 "" 0
      = { pages := [{ Err := none, PageNumber := 0, Instances := [1, 2] }],
          closed := true, calls := [{ MaxResults := 40, PageToken := "" }] } := by
  have h := fetched_page_delivered_before_cancel Nat Nat Nat
    (listerOf [[1, 2], [3]]) (listerOf [[1, 2], [3]]) (listerOf [[1, 2], [3]])
    40 0 alwaysCancel 4 "" 0 [1, 2] [1, 2] [1, 2]
    (toString 1) (toString 1) (toString 1) rfl
  exact h.1 rfl

/-- Claim C6: the three listing operations implement one and the same
pagination algorithm: for the same underlying lister, the same cancellation
schedule, and requests that agree on the pagination parameters (MaxPages
and ResultsPerPage), all three produce identical page streams — same page
numbers, same items per page, same error placement, same call trace and
same termination — differing only in the item type and the field name under
which items are carried (erased here by the toPage projections). -/
theorem three_listing_ops_share_one_engine (α : Type) (L : GoLister α)
    (c : Int → Bool) (fuel : Nat) (ireq : InstancesRequest) (zreq : ZoneRequest)
    (rreq : RecordSetRequest)
    (hiz : ireq.Zone ≠ "") (hip : ireq.Project ≠ "") (hzp : zreq.Project ≠ "")
    (hrp : rreq.Project ≠ "") (hrz : rreq.Zone ≠ "")
    (hm1 : ireq.MaxPages = zreq.MaxPages) (hm2 : zreq.MaxPages = rreq.MaxPages)
    (hr1 : ireq.ResultsPerPage = zreq.ResultsPerPage)
    (hr2 : zreq.ResultsPerPage = rreq.ResultsPerPage) :
    (ListInstances (some ireq) L c fuel).map (Emitted.mapPages InstancePage.toPage)
      = (ListZones (some zreq) L c fuel).map (Emitted.mapPages ZonePage.toPage)
      ∧ (ListZones (some zreq) L c fuel).map (Emitted.mapPages ZonePage.toPage)
        = (ListDNSRecordSets (some rreq) L c fuel).map
            (Emitted.mapPages RecordSetPage.toPage) := by
  have hvi : InstancesRequest.Validate (some ireq) = none := by
    simp [InstancesRequest.Validate, hiz, hip]
  have hvz : ZoneRequest.Validate (some zreq) = none := by
    simp [ZoneRequest.Validate, hzp]
  have hvr : RecordSetRequest.Validate (some rreq) = none := by
    simp [RecordSetRequest.Validate, hrp, hrz]
  simp only [ListInstances, ListZones, ListDNSRecordSets, hvi, hvz, hvr, Except.map]
  rw [instancesPageLoop_eq_core, zonesPageLoop_eq_core, recordSetsPageLoop_eq_core,
    hm1, hm2, hr1, hr2]
  exact ⟨rfl, rfl⟩

/-- validZoneReq is a well-formed zones request with default pagination. -/
def validZoneReq : ZoneRequest :=
  { Project := "p", OrderBy := "", Filter := "", MaxPages := 0, ResultsPerPage := 0 }

/-- validInstancesReq is a well-formed instances request with default
pagination. -/
def validInstancesReq : InstancesRequest :=
  { Project := "p", OrderBy := "", Filter := "", MaxPages := 0, ResultsPerPage := 0,
    Zone := "z" }

/-- validRecordSetReq is a well-formed record-set request with default
pagination. -/
def validRecordSetReq : RecordSetRequest :=
  { Project := "p", Zone := "z", DomainName := "", MaxPages := 0, ResultsPerPage := 0 }

/-- Witness for three_listing_ops_share_one_engine: over a concrete 2-page
lister, the three operations yield the same projected stream. -/
theorem three_listing_ops_share_one_engine_witness :
    (ListInstances (some validInstancesReq) (listerOf [[1, 2], [3]]) neverCancel 4).map
        (Emitted.mapPages InstancePage.toPage)
      = (ListZones (some validZoneReq) (listerOf [[1, 2], [3]]) neverCancel 4).map
          (Emitted.mapPages ZonePage.toPage)
      ∧ (ListZones (some validZoneReq) (listerOf [[1, 2], [3]]) neverCancel 4).map
          (Emitted.mapPages ZonePage.toPage)
        = (ListDNSRecordSets (some validRecordSetReq) (listerOf [[1, 2], [3]])
            neverCancel 4).map (Emitted.mapPages RecordSetPage.toPage) := by
  exact three_listing_ops_share_one_engine Nat (listerOf [[1, 2], [3]]) neverCancel 4
    validInstancesReq validZoneReq validRecordSetReq
    (by decide) (by decide) (by decide) (by decide) (by decide)
    rfl rfl rfl rfl

/-- Claim C9: for each listing operation on a valid request, the page size
passed to every remote fetch of the stream is the request's ResultsPerPage
when positive and 40 otherwise; the value is resolved once, before the
loop starts (it is a parameter of the loop, fixed for the stream's
lifetime), so every recorded call carries that same resolved value. -/
theorem resolved_page_size_used_by_every_fetch (α ζ ρ : Type) (Li : GoLister α)
    (Lz : GoLister ζ) (Lr : GoLister ρ) (c : Int → Bool) (fuel : Nat)
    (ireq : InstancesRequest) (zreq : ZoneRequest) (rreq : RecordSetRequest)
    (hiz : ireq.Zone ≠ "") (hip : ireq.Project ≠ "") (hzp : zreq.Project ≠ "")
    (hrp : rreq.Project ≠ "") (hrz : rreq.Zone ≠ "") :
    (∃ e, ListInstances (some ireq) Li c fuel = Except.ok e
      ∧ e.calls.map FetchCall.MaxResults = List.replicate e.calls.length
          (if ireq.ResultsPerPage > 0 then ireq.ResultsPerPage else 40))
      ∧ (∃ e, ListZones (some zreq) Lz c fuel = Except.ok e
        ∧ e.calls.map FetchCall.MaxResults = List.replicate e.calls.length
            (if zreq.ResultsPerPage > 0 then zreq.ResultsPerPage else 40))
      ∧ (∃ e, ListDNSRecordSets (some rreq) Lr c fuel = Except.ok e
        ∧ e.calls.map FetchCall.MaxResults = List.replicate e.calls.length
            (if rreq.ResultsPerPage > 0 then rreq.ResultsPerPage else 40)) := by
  have hvi : InstancesRequest.Validate (some ireq) = none := by
    simp [InstancesRequest.Validate, hiz, hip]
  have hvz : ZoneRequest.Validate (some zreq) = none := by
    simp [ZoneRequest.Validate, hzp]
  have hvr : RecordSetRequest.Validate (some rreq) = none := by
    simp [RecordSetRequest.Validate, hrp, hrz]
  refine ⟨⟨instancesPageLoop Li
      (if ireq.ResultsPerPage > 0 then ireq.ResultsPerPage else 40) ireq.MaxPages c fuel "" 0,
      by simp only [ListInstances, hvi], ?_⟩,
    ⟨zonesPageLoop Lz
      (if zreq.ResultsPerPage > 0 then zreq.ResultsPerPage else 40) zreq.MaxPages c fuel "" 0,
      by simp only [ListZones, hvz], ?_⟩,
    ⟨recordSetsPageLoop Lr
      (if rreq.ResultsPerPage > 0 then rreq.ResultsPerPage else 40) rreq.MaxPages c fuel "" 0,
      by simp only [ListDNSRecordSets, hvr], ?_⟩⟩
  · have hi := congrArg Emitted.calls
      (instancesPageLoop_eq_core Li (if ireq.ResultsPerPage > 0 then ireq.ResultsPerPage else 40)
        ireq.MaxPages c fuel "" 0)
    simp only [Emitted.mapPages] at hi
    rw [hi, core_calls_const, List.map_replicate, ← hi]
    simp
  · have hi := congrArg Emitted.calls
      (zonesPageLoop_eq_core Lz (if zreq.ResultsPerPage > 0 then zreq.ResultsPerPage else 40)
        zreq.MaxPages c fuel "" 0)
    simp only [Emitted.mapPages] at hi
    rw [hi, core_calls_const, List.map_replicate, ← hi]
    simp
  · have hi := congrArg Emitted.calls
      (recordSetsPageLoop_eq_core Lr (if rreq.ResultsPerPage > 0 then rreq.ResultsPerPage else 40)
        rreq.MaxPages c fuel "" 0)
    simp only [Emitted.mapPages] at hi
    rw [hi, core_calls_const, List.map_replicate, ← hi]
    simp

/-- Witness for resolved_page_size_used_by_every_fetch: valid requests with
ResultsPerPage 0 resolve to page size 40 on every fetch. -/
theorem resolved_page_size_witness :
    (∃ e, ListInstances (some validInstancesReq) (listerOf [[1, 2], [3]]) neverCancel 4
      = Except.ok e
      ∧ e.calls.map FetchCall.MaxResults = List.replicate e.calls.length
          (if validInstancesReq.ResultsPerPage > 0 then validInstancesReq.ResultsPerPage else 40))
      ∧ (∃ e, ListZones (some validZoneReq) (listerOf [[1, 2], [3]]) neverCancel 4
        = Except.ok e
        ∧ e.calls.map FetchCall.MaxResults = List.replicate e.calls.length
            (if validZoneReq.ResultsPerPage > 0 then validZoneReq.ResultsPerPage else 40))
      ∧ (∃ e, ListDNSRecordSets (some validRecordSetReq) (listerOf [[1, 2], [3]]) neverCancel 4
        = Except.ok e
        ∧ e.calls.map FetchCall.MaxResults = List.replicate e.calls.length
            (if validRecordSetReq.ResultsPerPage > 0 then validRecordSetReq.ResultsPerPage else 40)) := by
  exact resolved_page_size_used_by_every_fetch Nat Nat Nat
    (listerOf [[1, 2], [3]]) (listerOf [[1, 2], [3]]) (listerOf [[1, 2], [3]])
    neverCancel 4 validInstancesReq validZoneReq validRecordSetReq
    (by decide) (by decide) (by decide) (by decide) (by decide)

/-- A constant-valued map over any list is a replicate. -/
theorem map_const_eq_replicate {β γ : Type} (l : List β) (b : γ) :
    l.map (fun _ => b) = List.replicate l.length b := by
  induction l with
  | nil => rfl
  | cons x t ih => simp [ih, List.replicate_succ]

/-- Claim C1 fails on the code: evidence of the continuation-token bug. For
the request with MaxPages 0 and a lister that returns 2 pages ([1, 2] then
[3]) before an empty continuation token, the claim says the stream emits
exactly those 2 pages and closes. Instead, because the loop shadows its
token variable, every fetch reuses the empty start token: for every amount
of fuel the stream has not closed, every emitted page repeats the first
page's items [1, 2] (the page [3] is never reached), and every remote call
carries the empty page token. -/
theorem listInstances_refetches_first_page_forever (fuel : Nat) :
    ListInstances (some validInstancesReq) (listerOf [[1, 2], [3]]) neverCancel fuel
      = Except.ok (instancesPageLoop (listerOf [[1, 2], [3]]) 40 0 neverCancel fuel "" 0)
      ∧ (instancesPageLoop (listerOf [[1, 2], [3]]) 40 0 neverCancel fuel "" 0).closed = false
      ∧ (instancesPageLoop (listerOf [[1, 2], [3]]) 40 0 neverCancel fuel "" 0).pages.map
          InstancePage.Instances = List.replicate fuel [1, 2]
      ∧ (instancesPageLoop (listerOf [[1, 2], [3]]) 40 0 neverCancel fuel "" 0).pages.map
          InstancePage.Err = List.replicate fuel none
      ∧ (instancesPageLoop (listerOf [[1, 2], [3]]) 40 0 neverCancel fuel "" 0).pages.map
          InstancePage.PageNumber = (List.range fuel).map (fun i : Nat => (i : Int))
      ∧ (instancesPageLoop (listerOf [[1, 2], [3]]) 40 0 neverCancel fuel "" 0).calls
        = List.replicate fuel { MaxResults := 40, PageToken := "" } := by
  have hf : listerOf [[1, 2], [3]] 40 "" = Except.ok ([1, 2], toString 1) := rfl
  have hne : (toString 1 : String) ≠ "" := by decide
  have hcore := core_repeat (listerOf [[1, 2], [3]]) 40 0 neverCancel "" [1, 2]
    (toString 1) hf hne (fun i => rfl) (by norm_num) fuel 0
  have heq := instancesPageLoop_eq_core (listerOf [[1, 2], [3]]) 40 0 neverCancel fuel "" 0
  rw [hcore] at heq
  have hpages := congrArg Emitted.pages heq
  have hclosed := congrArg Emitted.closed heq
  have hcalls := congrArg Emitted.calls heq
  simp only [Emitted.mapPages] at hpages hclosed hcalls
  refine ⟨rfl, hclosed, ?_, ?_, ?_, hcalls⟩
  · have hc : (InstancePage.Instances : InstancePage Nat → List Nat)
        = Page.Items ∘ InstancePage.toPage := rfl
    rw [hc, ← List.map_map, hpages, List.map_map]
    have : (Page.Items ∘ fun i : Nat =>
        ({ Err := none, PageNumber := 0 + (i : Int), Items := [1, 2] } : Page Nat))
        = fun _ : Nat => ([1, 2] : List Nat) := rfl
    rw [this, map_const_eq_replicate, List.length_range]
  · have hc : (InstancePage.Err : InstancePage Nat → Option GoErr)
        = Page.Err ∘ InstancePage.toPage := rfl
    rw [hc, ← List.map_map, hpages, List.map_map]
    have : (Page.Err ∘ fun i : Nat =>
        ({ Err := none, PageNumber := 0 + (i : Int), Items := [1, 2] } : Page Nat))
        = fun _ : Nat => (none : Option GoErr) := rfl
    rw [this, map_const_eq_replicate, List.length_range]
  · have hc : (InstancePage.PageNumber : InstancePage Nat → Int)
        = Page.PageNumber ∘ InstancePage.toPage := rfl
    rw [hc, ← List.map_map, hpages, List.map_map]
    refine List.map_congr_left ?_
    intro i _
    simp

/-- maxOneInstancesReq is a valid instances request with MaxPages 1. -/
def maxOneInstancesReq : InstancesRequest :=
  { Project := "p", OrderBy := "", Filter := "", MaxPages := 1, ResultsPerPage := 0,
    Zone := "z" }

/-- Counterexample to claim C2: with MaxPages = 1 and a lister holding more
than 1 page, the stream emits 2 pages (both error-free) and closes; the
claim's "exactly m pages" is off by one, because the loop stops only when
the incremented counter strictly exceeds MaxPages. -/
theorem listInstances_maxPages_one_emits_two_pages :
    (ListInstances (some maxOneInstancesReq) (listerOf [[1, 2], [3]]) neverCancel 10).map
        (fun e => (e.pages.length, e.closed, e.pages.map InstancePage.Err))
      = Except.ok (2, true, [none, none])
      ∧ ¬((ListInstances (some maxOneInstancesReq) (listerOf [[1, 2], [3]]) neverCancel 10).map
          (fun e => e.pages.length) = Except.ok 1) := by
  constructor
  · rfl
  · have h : (ListInstances (some maxOneInstancesReq) (listerOf [[1, 2], [3]])
        neverCancel 10).map (fun e => e.pages.length) = Except.ok 2 := rfl
    rw [h]
    intro hcontra
    simp at hcontra

/-- Amended claim C2: with MaxPages = m > 0 and a lister that would return
more than m pages, each of the three streams emits exactly m + 1 pages
(none carrying an error) and then closes. -/
theorem maxPages_truncation_emits_one_extra_page (α : Type) (pages : List (List α))
    (mr m : Int) (fuel : Nat) (hm : 0 < m) (hlen : m < (pages.length : Int))
    (hfuel : m.toNat < fuel) :
    ((instancesPageLoop (listerOf pages) mr m neverCancel fuel "" 0).pages.length
        = m.toNat + 1
      ∧ (instancesPageLoop (listerOf pages) mr m neverCancel fuel "" 0).closed = true
      ∧ (instancesPageLoop (listerOf pages) mr m neverCancel fuel "" 0).pages.map
          InstancePage.Err = List.replicate (m.toNat + 1) none)
      ∧ ((zonesPageLoop (listerOf pages) mr m neverCancel fuel "" 0).pages.length
          = m.toNat + 1
        ∧ (zonesPageLoop (listerOf pages) mr m neverCancel fuel "" 0).closed = true
        ∧ (zonesPageLoop (listerOf pages) mr m neverCancel fuel "" 0).pages.map
            ZonePage.Err = List.replicate (m.toNat + 1) none)
      ∧ ((recordSetsPageLoop (listerOf pages) mr m neverCancel fuel "" 0).pages.length
          = m.toNat + 1
        ∧ (recordSetsPageLoop (listerOf pages) mr m neverCancel fuel "" 0).closed = true
        ∧ (recordSetsPageLoop (listerOf pages) mr m neverCancel fuel "" 0).pages.map
            RecordSetPage.Err = List.replicate (m.toNat + 1) none) := by
  cases pages with
  | nil => exfalso; simp at hlen; omega
  | cons p0 t =>
    cases t with
    | nil => exfalso; simp at hlen; omega
    | cons p1 rest =>
      have hf : listerOf (p0 :: p1 :: rest) mr "" = Except.ok (p0, toString (0 + 1)) := by
        simp [listerOf]
      have hne : toString (0 + 1) ≠ "" := by decide
      have hcore := core_maxpages (listerOf (p0 :: p1 :: rest)) mr m neverCancel ""
        p0 (toString (0 + 1)) hf hne (fun i => rfl) hm fuel 0 le_rfl (le_of_lt hm)
        (by omega)
      have hm0 : m - 0 = m := sub_zero m
      rw [hm0] at hcore
      refine ⟨?_, ?_, ?_⟩
      · have heq := instancesPageLoop_eq_core (listerOf (p0 :: p1 :: rest)) mr m
          neverCancel fuel "" 0
        rw [hcore] at heq
        have hpages := congrArg Emitted.pages heq
        have hclosed := congrArg Emitted.closed heq
        simp only [Emitted.mapPages] at hpages hclosed
        have hl := congrArg List.length hpages
        simp only [List.length_map, List.length_range] at hl
        refine ⟨hl, hclosed, ?_⟩
        have hc : (InstancePage.Err : InstancePage α → Option GoErr)
            = Page.Err ∘ InstancePage.toPage := rfl
        rw [hc, ← List.map_map, hpages, List.map_map]
        have hcomp : (Page.Err ∘ fun i : Nat =>
            ({ Err := none, PageNumber := 0 + (i : Int), Items := p0 } : Page α))
            = fun _ : Nat => (none : Option GoErr) := rfl
        rw [hcomp, map_const_eq_replicate, List.length_range]
      · have heq := zonesPageLoop_eq_core (listerOf (p0 :: p1 :: rest)) mr m
          neverCancel fuel "" 0
        rw [hcore] at heq
        have hpages := congrArg Emitted.pages heq
        have hclosed := congrArg Emitted.closed heq
        simp only [Emitted.mapPages] at hpages hclosed
        have hl := congrArg List.length hpages
        simp only [List.length_map, List.length_range] at hl
        refine ⟨hl, hclosed, ?_⟩
        have hc : (ZonePage.Err : ZonePage α → Option GoErr)
            = Page.Err ∘ ZonePage.toPage := rfl
        rw [hc, ← List.map_map, hpages, List.map_map]
        have hcomp : (Page.Err ∘ fun i : Nat =>
            ({ Err := none, PageNumber := 0 + (i : Int), Items := p0 } : Page α))
            = fun _ : Nat => (none : Option GoErr) := rfl
        rw [hcomp, map_const_eq_replicate, List.length_range]
      · have heq := recordSetsPageLoop_eq_core (listerOf (p0 :: p1 :: rest)) mr m
          neverCancel fuel "" 0
        rw [hcore] at heq
        have hpages := congrArg Emitted.pages heq
        have hclosed := congrArg Emitted.closed heq
        simp only [Emitted.mapPages] at hpages hclosed
        have hl := congrArg List.length hpages
        simp only [List.length_map, List.length_range] at hl
        refine ⟨hl, hclosed, ?_⟩
        have hc : (RecordSetPage.Err : RecordSetPage α → Option GoErr)
            = Page.Err ∘ RecordSetPage.toPage := rfl
        rw [hc, ← List.map_map, hpages, List.map_map]
        have hcomp : (Page.Err ∘ fun i : Nat =>
            ({ Err := none, PageNumber := 0 + (i : Int), Items := p0 } : Page α))
            = fun _ : Nat => (none : Option GoErr) := rfl
        rw [hcomp, map_const_eq_replicate, List.length_range]

/-- Witness for maxPages_truncation_emits_one_extra_page: a 3-page lister
with MaxPages 2 yields 3 pages in every stream. -/
theorem maxPages_truncation_witness :
    ((instancesPageLoop (listerOf [[1], [2], [3]]) 40 2 neverCancel 5 "" 0).pages.length
        = 3
      ∧ (instancesPageLoop (listerOf [[1], [2], [3]]) 40 2 neverCancel 5 "" 0).closed = true
      ∧ (instancesPageLoop (listerOf [[1], [2], [3]]) 40 2 neverCancel 5 "" 0).pages.map
          InstancePage.Err = List.replicate 3 none)
      ∧ ((zonesPageLoop (listerOf [[1], [2], [3]]) 40 2 neverCancel 5 "" 0).pages.length
          = 3
        ∧ (zonesPageLoop (listerOf [[1], [2], [3]]) 40 2 neverCancel 5 "" 0).closed = true
        ∧ (zonesPageLoop (listerOf [[1], [2], [3]]) 40 2 neverCancel 5 "" 0).pages.map
            ZonePage.Err = List.replicate 3 none)
      ∧ ((recordSetsPageLoop (listerOf [[1], [2], [3]]) 40 2 neverCancel 5 "" 0).pages.length
          = 3
        ∧ (recordSetsPageLoop (listerOf [[1], [2], [3]]) 40 2 neverCancel 5 "" 0).closed = true
        ∧ (recordSetsPageLoop (listerOf [[1], [2], [3]]) 40 2 neverCancel 5 "" 0).pages.map
            RecordSetPage.Err = List.replicate 3 none) := by
  exact maxPages_truncation_emits_one_extra_page Nat [[1], [2], [3]] 40 2 5
    (by norm_num) (by norm_num) (by norm_num)
